import Mathlib

/-!
Verification of the motiloginlink lookup service (src/server.js).

The service loads a CSV file mapping the "Email" column to the "Login Link"
column into an in-memory map (first write wins on the normalized key) and
serves lookups, a health report and a reload endpoint over HTTP.

The embedding below translates the JavaScript source shallowly:
strings stay strings, the JavaScript string primitives used by the code
(`trim`, `toLowerCase`, `??`, `||` defaulting) are modelled on the
character list underlying a Lean string, the `Map` is an insertion-ordered
association list with unique keys, the file system is a function from
paths to optional row lists, and each Express handler is a pure function
from the store and the request data to the new store and a response.
-/

/-- Model of JavaScript `String.prototype.trim()`: remove whitespace from
both ends of the string. -/
def jsTrim (s : String) : String :=
  ⟨List.rdropWhile Char.isWhitespace (List.dropWhile Char.isWhitespace s.data)⟩

/-- Model of JavaScript `String.prototype.toLowerCase()` on the basic
latin letters: lower-case every character. -/
def jsToLower (s : String) : String :=
  ⟨s.data.map Char.toLower⟩

/-- Model of JavaScript `x ?? ''` for a possibly-undefined string `x`. -/
def jsCoalesce (s : Option String) : String :=
  s.getD ""

/-- Model of JavaScript `x || d` for a possibly-undefined string `x`:
`undefined` and the empty string are falsy, so they select the default. -/
def jsOrDefault (s : Option String) (d : String) : String :=
  match s with
  | none => d
  | some t => if t = "" then d else t

/-- The function `norm` of server.js (lines 40-42):
`(str ?? '').toString().trim().toLowerCase()`. -/
def norm (s : Option String) : String :=
  jsToLower (jsTrim (jsCoalesce s))

/-- One parsed CSV row, as the object handed to the `data` callback:
the two named columns, each possibly absent (`undefined`). -/
structure Row where
  email : Option String
  link : Option String
deriving DecidableEq

/-- The in-memory table `Map<emailLower, loginLink>`: an insertion-ordered
association list.  The loader only ever inserts keys it has not seen, so
keys are unique and the list length is the `Map` size. -/
abbrev Table := List (String × String)

/-- Model of `tmp.has(email)`. -/
def tableHas (t : Table) (k : String) : Bool :=
  (List.lookup k t).isSome

/-- Model of `emailToLink.get(email)`. -/
def tableGet (t : Table) (k : String) : Option String :=
  List.lookup k t

/-- Model of `tmp.set(email, link)` for a key not yet present: append the
new binding, preserving insertion order. -/
def tableSet (t : Table) (k v : String) : Table :=
  t ++ [(k, v)]

/-- The `data` callback of `loadCsv` (server.js lines 54-61): normalize the
`Email` field, trim the `Login Link` field, skip the row when either is
empty, and otherwise insert with first-write-wins on the key. -/
def onDataRow (tmp : Table) (row : Row) : Table :=
  let email := norm row.email
  let link := jsTrim (jsCoalesce row.link)
  if email ≠ "" ∧ link ≠ "" then
    if tableHas tmp email then tmp else tableSet tmp email link
  else tmp

/-- The table built by streaming all rows of a source through the `data`
callback, starting from `new Map()`. -/
def buildTable (rows : List Row) : Table :=
  List.foldl onDataRow [] rows

/-- The mutable store of server.js (lines 36-38): the active table
`emailToLink` and `lastLoadedPath`. -/
structure Store where
  emailToLink : Table
  lastLoadedPath : String
deriving DecidableEq

/-- The file system as seen by `loadCsv`: a path either does not exist
(`none`, making `fs.existsSync` false) or yields the parsed row stream. -/
abbrev FS := String → Option (List Row)

/-- The value `loadCsv` resolves with on success: `{ count, path }`. -/
structure LoadInfo where
  count : Nat
  path : String
deriving DecidableEq

/-- The function `loadCsv` of server.js (lines 45-69).  A missing path
rejects with `CSV not found` and leaves the store untouched; otherwise the
full table is built off to the side and installed together with the path,
and the promise resolves with the size of the installed table. -/
def loadCsv (fs : FS) (csvPath : String) (st : Store) : Store × Except String LoadInfo :=
  match fs csvPath with
  | none => (st, Except.error ("CSV not found: " ++ csvPath))
  | some rows =>
      let tmp := buildTable rows
      (⟨tmp, csvPath⟩, Except.ok ⟨tmp.length, csvPath⟩)

/-- Server configuration from the environment: the working directory,
`DEFAULT_CSV_PATH` and `API_ACCESS_KEY` (blank disables auth). -/
structure Config where
  cwd : String
  defaultCsvPath : String
  apiAccessKey : String
deriving DecidableEq

/-- The `authGuard` middleware (server.js lines 29-34): pass when the
configured key is blank, otherwise pass exactly when the `x-api-key`
header equals the configured key. -/
def authGuardPasses (cfg : Config) (headerKey : Option String) : Bool :=
  if cfg.apiAccessKey = "" then true
  else headerKey = some cfg.apiAccessKey

/-- The JSON responses the handlers can produce. -/
inductive Resp where
  | badRequest (error : String)
  | unauthorized
  | notFound
  | okLookup (email loginLink : String)
  | okReload (count : Nat) (path : String)
  | serverError (error : String)
  | okHealth (ok : Bool) (loaded : Nat) (csvPath : String)
deriving DecidableEq

/-- The `GET /health` handler (server.js lines 72-74). -/
def getHealthResp (st : Store) : Resp :=
  Resp.okHealth true st.emailToLink.length st.lastLoadedPath

/-- The `GET /lookup` handler (server.js lines 76-84): 400 on an empty
normalized email, 404 when `get` returns a falsy value, otherwise the
trimmed original email together with the stored link. -/
def getLookup (st : Store) (queryEmail : Option String) : Resp :=
  let email := norm queryEmail
  if email = "" then Resp.badRequest "Missing email query param"
  else
    match tableGet st.emailToLink email with
    | none => Resp.notFound
    | some link =>
        if link = "" then Resp.notFound
        else Resp.okLookup (jsTrim (jsOrDefault queryEmail "")) link

/-- The `POST /lookup` handler body (server.js lines 86-94), after the
auth guard has passed. -/
def postLookup (st : Store) (bodyEmail : Option String) : Resp :=
  let email := norm bodyEmail
  if email = "" then Resp.badRequest "Missing \"email\" in JSON body"
  else
    match tableGet st.emailToLink email with
    | none => Resp.notFound
    | some link =>
        if link = "" then Resp.notFound
        else Resp.okLookup (jsTrim (jsCoalesce bodyEmail)) link

/-- Model of Node's `path.isAbsolute` for POSIX-style paths: the path
starts with a slash. -/
def isAbsolutePath (p : String) : Bool :=
  match p.data with
  | [] => false
  | c :: _ => c = '/'

/-- Model of `path.join(a, b)` for already-normalized segments. -/
def joinPath (a b : String) : String :=
  a ++ "/" ++ b

/-- Path resolution of `POST /reload` (server.js lines 97-99):
`req.body?.path || DEFAULT_CSV_PATH`, then relative paths are joined to
the working directory. -/
def resolveReloadPath (cfg : Config) (bodyPath : Option String) : String :=
  let reqPath := jsOrDefault bodyPath cfg.defaultCsvPath
  if isAbsolutePath reqPath then reqPath else joinPath cfg.cwd reqPath

/-- The `POST /reload` handler body (server.js lines 96-106), after the
auth guard has passed: a successful load answers
`{reloaded:true, count, path}`, a failed one answers 500 with the error
message. -/
def postReload (fs : FS) (cfg : Config) (st : Store) (bodyPath : Option String) : Store × Resp :=
  let csvPath := resolveReloadPath cfg bodyPath
  match loadCsv fs csvPath st with
  | (st2, Except.ok info) => (st2, Resp.okReload info.count info.path)
  | (st2, Except.error msg) => (st2, Resp.serverError msg)

/-- One inbound HTTP request of the served routes. -/
inductive Request where
  | health
  | getOne (queryEmail : Option String)
  | postOne (headerKey : Option String) (bodyEmail : Option String)
  | reload (headerKey : Option String) (bodyPath : Option String)

/-- The route table of server.js: the two GET routes carry no middleware,
the two POST routes run `authGuard` before their handler. -/
def handle (fs : FS) (cfg : Config) (st : Store) : Request → Store × Resp
  | Request.health => (st, getHealthResp st)
  | Request.getOne q => (st, getLookup st q)
  | Request.postOne hdr body =>
      if authGuardPasses cfg hdr then (st, postLookup st body)
      else (st, Resp.unauthorized)
  | Request.reload hdr bodyPath =>
      if authGuardPasses cfg hdr then postReload fs cfg st bodyPath
      else (st, Resp.unauthorized)

/-- Spec-side description of the load result (used to state the
first-write-wins claims): the trimmed link of the first row whose
normalized email is `k`, where both fields survive normalization. -/
def firstHit (rows : List Row) (k : String) : Option String :=
  match rows with
  | [] => none
  | row :: rest =>
      if norm row.email = k ∧ k ≠ "" ∧ jsTrim (jsCoalesce row.link) ≠ ""
      then some (jsTrim (jsCoalesce row.link))
      else firstHit rest k

/-- An in-flight `loadCsv` stream: the rows not yet delivered, the table
built so far, and the path being loaded. -/
structure LoadJob where
  todo : List Row
  tmp : Table
  path : String

/-- The whole service state while a reload may be in flight. -/
structure SysState where
  store : Store
  job : Option LoadJob

/-- Event-loop steps of an in-flight load: each `data` callback folds one
row into the private `tmp` table without touching the store; the `end`
callback installs the finished table and path in one step.  Lookups run
between steps and only read `store`. -/
inductive LoadStep : SysState → SysState → Prop where
  | data (st : Store) (r : Row) (rest : List Row) (tmp : Table) (p : String) :
      LoadStep ⟨st, some ⟨r :: rest, tmp, p⟩⟩ ⟨st, some ⟨rest, onDataRow tmp r, p⟩⟩
  | finish (st : Store) (tmp : Table) (p : String) :
      LoadStep ⟨st, some ⟨[], tmp, p⟩⟩ ⟨⟨tmp, p⟩, none⟩

/-- The concrete source of the end-to-end scenario in the spec: header
`Email,Login Link` with two rows whose emails normalize to the same key. -/
def exRows : List Row :=
  [⟨some "A@Example.com", some "http://x/1"⟩, ⟨some "a@example.com", some "http://x/2"⟩]

/-! ### Helper lemmas about the table construction -/

lemma firstHit_cons (r : Row) (rs : List Row) (k : String) :
    firstHit (r :: rs) k =
      if norm r.email = k ∧ k ≠ "" ∧ jsTrim (jsCoalesce r.link) ≠ ""
      then some (jsTrim (jsCoalesce r.link))
      else firstHit rs k := rfl

lemma lookup_single (k e v : String) :
    List.lookup k [(e, v)] = if k = e then some v else none := by
  by_cases h : k = e
  · subst h
    simp [List.lookup]
  · simp [List.lookup, h, beq_false_of_ne h]

lemma lookup_onDataRow (tmp : Table) (r : Row) (k : String) :
    List.lookup k (onDataRow tmp r) =
      (List.lookup k tmp).or
        (if norm r.email = k ∧ k ≠ "" ∧ jsTrim (jsCoalesce r.link) ≠ ""
         then some (jsTrim (jsCoalesce r.link)) else none) := by
  unfold onDataRow
  by_cases hval : norm r.email ≠ "" ∧ jsTrim (jsCoalesce r.link) ≠ ""
  · rw [if_pos hval]
    by_cases hhas : tableHas tmp (norm r.email) = true
    · rw [if_pos hhas]
      by_cases hk : norm r.email = k
      · subst hk
        rcases Option.isSome_iff_exists.mp hhas with ⟨v, hv⟩
        simp [hv]
      · simp [hk]
    · rw [if_neg hhas]
      rw [tableSet, List.lookup_append, lookup_single]
      by_cases hk : norm r.email = k
      · subst hk
        have hnone : List.lookup (norm r.email) tmp = none := by
          rcases h : List.lookup (norm r.email) tmp with _ | v
          · rfl
          · exact absurd (by simp [tableHas, h]) hhas
        simp [hnone, hval.1, hval.2]
      · have hk2 : ¬ k = norm r.email := fun h2 => hk h2.symm
        simp [hk, hk2]
  · rw [if_neg hval]
    have hcond : ¬ (norm r.email = k ∧ k ≠ "" ∧ jsTrim (jsCoalesce r.link) ≠ "") := by
      rintro ⟨he, hk0, hl⟩
      exact hval ⟨he ▸ hk0, hl⟩
    simp [hcond]

lemma lookup_foldl_onDataRow (rows : List Row) (tmp : Table) (k : String) :
    List.lookup k (List.foldl onDataRow tmp rows) =
      (List.lookup k tmp).or (firstHit rows k) := by
  induction rows generalizing tmp with
  | nil => simp [firstHit]
  | cons r rs ih =>
      rw [List.foldl_cons, ih, lookup_onDataRow, Option.or_assoc, firstHit_cons]
      by_cases hcond : norm r.email = k ∧ k ≠ "" ∧ jsTrim (jsCoalesce r.link) ≠ ""
      · rw [if_pos hcond, if_pos hcond]
        simp
      · rw [if_neg hcond, if_neg hcond]
        simp

lemma lookup_buildTable (rows : List Row) (k : String) :
    List.lookup k (buildTable rows) = firstHit rows k := by
  have h := lookup_foldl_onDataRow rows [] k
  simpa [buildTable] using h

lemma firstHit_eq_of_first (rows : List Row) (i : Nat) (row : Row) (k : String)
    (hi : rows[i]? = some row)
    (hk : norm row.email = k) (hk0 : k ≠ "") (hv : jsTrim (jsCoalesce row.link) ≠ "")
    (hfirst : ∀ m, m < i → ∀ rm, rows[m]? = some rm →
      ¬(norm rm.email = k ∧ jsTrim (jsCoalesce rm.link) ≠ "")) :
    firstHit rows k = some (jsTrim (jsCoalesce row.link)) := by
  induction rows generalizing i with
  | nil => simp at hi
  | cons r rs ih =>
      cases i with
      | zero =>
          simp only [List.getElem?_cons_zero, Option.some.injEq] at hi
          subst hi
          rw [firstHit_cons, if_pos ⟨hk, hk0, hv⟩]
      | succ n =>
          simp only [List.getElem?_cons_succ] at hi
          have h0 : ¬(norm r.email = k ∧ jsTrim (jsCoalesce r.link) ≠ "") :=
            hfirst 0 (Nat.succ_pos n) r (by simp)
          rw [firstHit_cons, if_neg (fun hc => h0 ⟨hc.1, hc.2.2⟩)]
          refine ih n hi ?_
          intro m hm rm hrm
          exact hfirst (m + 1) (Nat.succ_lt_succ hm) rm (by simpa using hrm)

lemma firstHit_value_ne_empty (rows : List Row) (k v : String)
    (h : firstHit rows k = some v) : v ≠ "" := by
  induction rows with
  | nil => simp [firstHit] at h
  | cons r rs ih =>
      rw [firstHit_cons] at h
      by_cases hcond : norm r.email = k ∧ k ≠ "" ∧ jsTrim (jsCoalesce r.link) ≠ ""
      · rw [if_pos hcond] at h
        cases h
        exact hcond.2.2
      · rw [if_neg hcond] at h
        exact ih h

lemma lookup_buildTable_value_ne_empty (rows : List Row) (k v : String)
    (h : List.lookup k (buildTable rows) = some v) : v ≠ "" :=
  firstHit_value_ne_empty rows k v (by rw [← lookup_buildTable]; exact h)

lemma onDataRow_skip (tmp : Table) (row : Row)
    (h : norm row.email = "" ∨ jsTrim (jsCoalesce row.link) = "") :
    onDataRow tmp row = tmp := by
  unfold onDataRow
  rw [if_neg]
  rintro ⟨he, hl⟩
  rcases h with h | h
  · exact he h
  · exact hl h

lemma buildTable_skip (pre post : List Row) (row : Row)
    (h : norm row.email = "" ∨ jsTrim (jsCoalesce row.link) = "") :
    buildTable (pre ++ row :: post) = buildTable (pre ++ post) := by
  unfold buildTable
  rw [List.foldl_append, List.foldl_append, List.foldl_cons,
    onDataRow_skip _ _ h]

/-! ### Helper lemmas about normalization -/

lemma char_toNat_ofNat {n : Nat} (h : n < 55296) : (Char.ofNat n).toNat = n := by
  rw [Char.ofNat, dif_pos (Or.inl h)]
  rfl

lemma char_toLower_eq (c : Char) :
    Char.toLower c =
      if 65 ≤ c.toNat ∧ c.toNat ≤ 90 then Char.ofNat (c.toNat + 32) else c := rfl

lemma char_toNat_toLower (c : Char) :
    (Char.toLower c).toNat =
      if 65 ≤ c.toNat ∧ c.toNat ≤ 90 then c.toNat + 32 else c.toNat := by
  rw [char_toLower_eq]
  by_cases h : 65 ≤ c.toNat ∧ c.toNat ≤ 90
  · rw [if_pos h, if_pos h, char_toNat_ofNat (by omega)]
  · rw [if_neg h, if_neg h]

lemma char_toLower_idem (c : Char) :
    Char.toLower (Char.toLower c) = Char.toLower c := by
  have hn : ¬ (65 ≤ (Char.toLower c).toNat ∧ (Char.toLower c).toNat ≤ 90) := by
    rw [char_toNat_toLower c]
    by_cases h : 65 ≤ c.toNat ∧ c.toNat ≤ 90
    · rw [if_pos h]
      omega
    · rw [if_neg h]
      exact h
  rw [char_toLower_eq (Char.toLower c), if_neg hn]

lemma char_not_ws_of_ge (c : Char) (h : 65 ≤ c.toNat) :
    c.isWhitespace = false := by
  have h32 : c ≠ ' ' := by
    rintro rfl
    exact absurd h (by decide)
  have h9 : c ≠ '\t' := by
    rintro rfl
    exact absurd h (by decide)
  have h13 : c ≠ '\r' := by
    rintro rfl
    exact absurd h (by decide)
  have h10 : c ≠ '\n' := by
    rintro rfl
    exact absurd h (by decide)
  simp [Char.isWhitespace, h32, h9, h13, h10]

lemma char_ws_toLower (c : Char) :
    (Char.toLower c).isWhitespace = c.isWhitespace := by
  by_cases h : 65 ≤ c.toNat ∧ c.toNat ≤ 90
  · rw [char_not_ws_of_ge c h.1, char_not_ws_of_ge]
    rw [char_toNat_toLower c, if_pos h]
    omega
  · rw [char_toLower_eq c, if_neg h]

lemma head?_dropWhile_not_ws {α : Type} (p : α → Bool) (l : List α) (c : α)
    (h : (List.dropWhile p l).head? = some c) : p c = false := by
  induction l with
  | nil => simp at h
  | cons a as ih =>
      rw [List.dropWhile_cons] at h
      by_cases hp : p a = true
      · rw [if_pos hp] at h
        exact ih h
      · rw [if_neg hp] at h
        injection h with h
        subst h
        exact Bool.eq_false_iff.mpr hp

lemma getLast?_rdropWhile_not_ws {α : Type} (p : α → Bool) (l : List α) (c : α)
    (h : (List.rdropWhile p l).getLast? = some c) : p c = false := by
  rw [List.rdropWhile, List.getLast?_reverse] at h
  exact head?_dropWhile_not_ws p l.reverse c h

lemma trimL_head_not_ws (l : List Char) (c : Char)
    (h : (List.rdropWhile Char.isWhitespace (List.dropWhile Char.isWhitespace l)).head? =
      some c) :
    c.isWhitespace = false := by
  rcases List.rdropWhile_prefix Char.isWhitespace (List.dropWhile Char.isWhitespace l)
    with ⟨t, ht⟩
  have hm : (List.dropWhile Char.isWhitespace l).head? = some c := by
    rw [← ht, List.head?_append, h]
    rfl
  exact head?_dropWhile_not_ws _ _ _ hm

lemma trimL_last_not_ws (l : List Char) (c : Char)
    (h : (List.rdropWhile Char.isWhitespace (List.dropWhile Char.isWhitespace l)).getLast? =
      some c) :
    c.isWhitespace = false :=
  getLast?_rdropWhile_not_ws _ _ _ h

lemma trimL_eq_self (l : List Char)
    (h1 : ∀ c, l.head? = some c → c.isWhitespace = false)
    (h2 : ∀ c, l.getLast? = some c → c.isWhitespace = false) :
    List.rdropWhile Char.isWhitespace (List.dropWhile Char.isWhitespace l) = l := by
  have hd : List.dropWhile Char.isWhitespace l = l := by
    rw [List.dropWhile_eq_self_iff]
    intro hl
    have hh : l.head? = some (l.get ⟨0, hl⟩) := by
      cases l with
      | nil => simp at hl
      | cons a as => rfl
    rw [h1 _ hh]
    simp
  rw [hd, List.rdropWhile_eq_self_iff]
  intro hl
  rw [h2 _ (List.getLast?_eq_getLast l hl)]
  simp

lemma trimL_map_toLower (l : List Char) :
    List.rdropWhile Char.isWhitespace (List.dropWhile Char.isWhitespace
      ((List.rdropWhile Char.isWhitespace (List.dropWhile Char.isWhitespace l)).map
        Char.toLower)) =
    (List.rdropWhile Char.isWhitespace (List.dropWhile Char.isWhitespace l)).map
      Char.toLower := by
  apply trimL_eq_self
  · intro c hc
    rw [List.head?_map] at hc
    rcases ho : (List.rdropWhile Char.isWhitespace
        (List.dropWhile Char.isWhitespace l)).head? with _ | d
    · rw [ho] at hc
      cases hc
    · rw [ho] at hc
      injection hc with hc
      subst hc
      rw [char_ws_toLower]
      exact trimL_head_not_ws l d ho
  · intro c hc
    rw [List.getLast?_map] at hc
    rcases ho : (List.rdropWhile Char.isWhitespace
        (List.dropWhile Char.isWhitespace l)).getLast? with _ | d
    · rw [ho] at hc
      cases hc
    · rw [ho] at hc
      injection hc with hc
      subst hc
      rw [char_ws_toLower]
      exact trimL_last_not_ws l d ho

lemma norm_idem (q : Option String) : norm (some (norm q)) = norm q := by
  apply String.ext
  show (List.rdropWhile Char.isWhitespace (List.dropWhile Char.isWhitespace
      ((List.rdropWhile Char.isWhitespace
        (List.dropWhile Char.isWhitespace (jsCoalesce q).data)).map Char.toLower))).map
      Char.toLower
    = (List.rdropWhile Char.isWhitespace
        (List.dropWhile Char.isWhitespace (jsCoalesce q).data)).map Char.toLower
  rw [trimL_map_toLower, List.map_map]
  refine List.map_congr_left ?_
  intro c _
  exact char_toLower_idem c

lemma jsToLower_eq_empty_iff (s : String) : jsToLower s = "" ↔ s = "" := by
  constructor
  · intro h
    have hd : s.data.map Char.toLower = ([] : List Char) :=
      congrArg String.data h
    exact String.ext (List.map_eq_nil_iff.mp hd)
  · rintro rfl
    rfl

lemma norm_eq_empty_iff (q : Option String) :
    norm q = "" ↔ jsTrim (jsCoalesce q) = "" :=
  jsToLower_eq_empty_iff (jsTrim (jsCoalesce q))

/-! ### Helper lemmas about the in-flight load model -/

lemma loadStep_invariant (st0 : Store) (rows : List Row) (p : String) (s : SysState)
    (h : Relation.ReflTransGen LoadStep ⟨st0, some ⟨rows, [], p⟩⟩ s) :
    (s.store = st0 ∧ ∃ todo tmp, s.job = some ⟨todo, tmp, p⟩ ∧
        List.foldl onDataRow tmp todo = buildTable rows) ∨
    (s.store = ⟨buildTable rows, p⟩ ∧ s.job = none) := by
  induction h with
  | refl =>
      left
      exact ⟨rfl, rows, [], rfl, rfl⟩
  | tail hab hbc ih =>
      rcases ih with ⟨hst, todo, tmp, hjob, hfold⟩ | ⟨hst, hjob⟩
      · cases hbc with
        | data st r rest tmp2 p2 =>
            simp only at hst hjob
            injection hjob with hjob
            injection hjob with h1 h2 h3
            subst hst h1 h2 h3
            left
            refine ⟨rfl, rest, onDataRow tmp2 r, rfl, ?_⟩
            rw [← hfold]
            rfl
        | finish st tmp2 p2 =>
            simp only at hst hjob
            injection hjob with hjob
            injection hjob with h1 h2 h3
            subst h1 h2 h3
            right
            refine ⟨?_, rfl⟩
            rw [List.foldl_nil] at hfold
            rw [hfold]
      · cases hbc with
        | data st r rest tmp2 p2 => exact Option.noConfusion hjob
        | finish st tmp2 p2 => exact Option.noConfusion hjob

/-! ### Claim theorems -/

/-- C1: first-write-wins deduplication.  When a source contains two rows
whose emails normalize to the same non-empty key but whose trimmed links
differ, the loaded table maps that key to the link of the first such row in
scan order (the row before which no row carries the key), never to the
second; and loading the concrete source `A@Example.com,http://x/1` then
`a@example.com,http://x/2` yields `http://x/1` for `a@example.com` and a
table of size 1. -/
theorem C1_first_write_wins
    (rows : List Row) (i j : Nat) (ri rj : Row) (k : String)
    (hij : i < j) (hi : rows[i]? = some ri) (hj : rows[j]? = some rj)
    (hki : norm ri.email = k) (hkj : norm rj.email = k) (hk : k ≠ "")
    (hvi : jsTrim (jsCoalesce ri.link) ≠ "") (hvj : jsTrim (jsCoalesce rj.link) ≠ "")
    (hne : jsTrim (jsCoalesce ri.link) ≠ jsTrim (jsCoalesce rj.link))
    (hfirst : ∀ m, m < i → ∀ rm, rows[m]? = some rm →
        ¬(norm rm.email = k ∧ jsTrim (jsCoalesce rm.link) ≠ "")) :
    List.lookup k (buildTable rows) = some (jsTrim (jsCoalesce ri.link)) ∧
    List.lookup k (buildTable rows) ≠ some (jsTrim (jsCoalesce rj.link)) ∧
    (∀ fs : FS, ∀ st p, fs p = some exRows →
      List.lookup "a@example.com" (loadCsv fs p st).1.emailToLink = some "http://x/1" ∧
      (loadCsv fs p st).1.emailToLink.length = 1) := by
  have hmain : List.lookup k (buildTable rows) = some (jsTrim (jsCoalesce ri.link)) := by
    rw [lookup_buildTable]
    exact firstHit_eq_of_first rows i ri k hi hki hk hvi hfirst
  refine ⟨hmain, ?_, ?_⟩
  · rw [hmain]
    intro hcontra
    injection hcontra with hcontra
    exact hne hcontra
  · intro fs st p hfs
    simp only [loadCsv, hfs]
    exact ⟨by decide, by decide⟩

/-- Witness for C1 at the concrete duplicate-key source. -/
theorem C1_witness :
    List.lookup "a@example.com"
        (loadCsv (fun _ => some exRows) "data.csv" ⟨[], ""⟩).1.emailToLink =
      some "http://x/1" ∧
    (loadCsv (fun _ => some exRows) "data.csv" ⟨[], ""⟩).1.emailToLink.length = 1 :=
  (C1_first_write_wins exRows 0 1
      ⟨some "A@Example.com", some "http://x/1"⟩ ⟨some "a@example.com", some "http://x/2"⟩
      "a@example.com" (by decide) (by decide) (by decide) (by decide) (by decide)
      (by decide) (by decide) (by decide) (by decide)
      (fun m hm _ _ => absurd hm (Nat.not_lt_zero m))).2.2
    (fun _ => some exRows) ⟨[], ""⟩ "data.csv" rfl

/-- C2: a load invoked on a nonexistent path fails and leaves the store
(table, path, count) exactly as it was; every key previously found is
still found with the same value, every lookup response is unchanged, and
the health report is unchanged. -/
theorem C2_failed_load_non_regression
    (fs : FS) (st : Store) (p : String) (h : fs p = none) :
    (loadCsv fs p st).1 = st ∧
    (loadCsv fs p st).2 = Except.error ("CSV not found: " ++ p) ∧
    (∀ k v, List.lookup k st.emailToLink = some v →
        List.lookup k (loadCsv fs p st).1.emailToLink = some v) ∧
    (∀ q, getLookup (loadCsv fs p st).1 q = getLookup st q) ∧
    getHealthResp (loadCsv fs p st).1 = getHealthResp st := by
  have hload : loadCsv fs p st = (st, Except.error ("CSV not found: " ++ p)) := by
    simp only [loadCsv, h]
  rw [hload]
  exact ⟨rfl, rfl, fun k v hv => hv, fun q => rfl, rfl⟩

/-- Witness for C2: a failed reload of an installed single-entry table. -/
theorem C2_witness :
    (loadCsv (fun _ => none) "missing.csv" ⟨buildTable exRows, "data.csv"⟩).1 =
      ⟨buildTable exRows, "data.csv"⟩ ∧
    (loadCsv (fun _ => none) "missing.csv" ⟨buildTable exRows, "data.csv"⟩).2 =
      Except.error ("CSV not found: " ++ "missing.csv") ∧
    (∀ k v, List.lookup k (Store.mk (buildTable exRows) "data.csv").emailToLink = some v →
        List.lookup k
          (loadCsv (fun _ => none) "missing.csv"
            ⟨buildTable exRows, "data.csv"⟩).1.emailToLink = some v) ∧
    (∀ q, getLookup
        (loadCsv (fun _ => none) "missing.csv" ⟨buildTable exRows, "data.csv"⟩).1 q =
      getLookup ⟨buildTable exRows, "data.csv"⟩ q) ∧
    getHealthResp
        (loadCsv (fun _ => none) "missing.csv" ⟨buildTable exRows, "data.csv"⟩).1 =
      getHealthResp ⟨buildTable exRows, "data.csv"⟩ :=
  C2_failed_load_non_regression (fun _ => none) ⟨buildTable exRows, "data.csv"⟩
    "missing.csv" rfl

/-- C5: a row whose normalized email or trimmed link is empty contributes
no entry: the loaded table is identical to the table loaded without that
row. -/
theorem C5_empty_field_skip (pre post : List Row) (row : Row)
    (h : norm row.email = "" ∨ jsTrim (jsCoalesce row.link) = "") :
    buildTable (pre ++ row :: post) = buildTable (pre ++ post) :=
  buildTable_skip pre post row h

/-- Witness for C5: a whitespace-only email is skipped. -/
theorem C5_witness :
    buildTable (exRows ++ Row.mk (some "  ") (some "http://x/3") :: []) =
      buildTable (exRows ++ []) :=
  C5_empty_field_skip exRows [] ⟨some "  ", some "http://x/3"⟩ (Or.inl (by decide))

/-- C9: normalization is idempotent, so looking up a normalized key and a
doubly-normalized key give the same answer, both on the raw table and
through the lookup route. -/
theorem C9_normalization_idempotent (st : Store) (K : String) :
    norm (some (norm (some K))) = norm (some K) ∧
    List.lookup (norm (some (norm (some K)))) st.emailToLink =
      List.lookup (norm (some K)) st.emailToLink ∧
    getLookup st (some (norm (some (norm (some K))))) =
      getLookup st (some (norm (some K))) := by
  refine ⟨norm_idem (some K), ?_, ?_⟩
  · rw [norm_idem (some K)]
  · rw [norm_idem (some K)]

/-- C10: a row lacking the `Email` or `Login Link` column entirely is
treated as having an empty field: it is skipped without affecting the rest
of the table, and a load over any rows (including such rows) still
succeeds. -/
theorem C10_missing_columns_total
    (fs : FS) (p : String) (st : Store) (pre post : List Row) (row : Row)
    (hmiss : row.email = none ∨ row.link = none) :
    buildTable (pre ++ row :: post) = buildTable (pre ++ post) ∧
    (∀ rows, fs p = some rows → ∃ info, (loadCsv fs p st).2 = Except.ok info) := by
  constructor
  · apply buildTable_skip
    rcases hmiss with h | h
    · left
      rw [h]
      rfl
    · right
      rw [h]
      rfl
  · intro rows hr
    refine ⟨⟨(buildTable rows).length, p⟩, ?_⟩
    simp only [loadCsv, hr]

/-- Witness for C10: a row with a missing email column is skipped and the
load still succeeds. -/
theorem C10_witness :
    buildTable (exRows ++ Row.mk none (some "http://x/9") :: []) =
      buildTable (exRows ++ []) ∧
    (∀ rows, (fun (_ : String) => some (Row.mk none (some "http://x/9") :: exRows))
        "data.csv" = some rows →
      ∃ info, (loadCsv (fun _ => some (Row.mk none (some "http://x/9") :: exRows))
        "data.csv" ⟨[], ""⟩).2 = Except.ok info) :=
  C10_missing_columns_total (fun _ => some (Row.mk none (some "http://x/9") :: exRows))
    "data.csv" ⟨[], ""⟩ exRows [] ⟨none, some "http://x/9"⟩ (Or.inl rfl)

lemma getLookup_eq (st : Store) (q : Option String) :
    getLookup st q =
      if norm q = "" then Resp.badRequest "Missing email query param"
      else match List.lookup (norm q) st.emailToLink with
        | none => Resp.notFound
        | some link =>
            if link = "" then Resp.notFound
            else Resp.okLookup (jsTrim (jsOrDefault q "")) link := rfl

lemma postLookup_eq (st : Store) (q : Option String) :
    postLookup st q =
      if norm q = "" then Resp.badRequest "Missing \"email\" in JSON body"
      else match List.lookup (norm q) st.emailToLink with
        | none => Resp.notFound
        | some link =>
            if link = "" then Resp.notFound
            else Resp.okLookup (jsTrim (jsCoalesce q)) link := rfl

lemma getLookup_ne_unauthorized (st : Store) (q : Option String) :
    getLookup st q ≠ Resp.unauthorized := by
  rw [getLookup_eq]
  by_cases hq : norm q = ""
  · rw [if_pos hq]
    exact fun h => Resp.noConfusion h
  · rw [if_neg hq]
    rcases hl : List.lookup (norm q) st.emailToLink with _ | link
    · simp only [hl]
      exact fun h => Resp.noConfusion h
    · simp only [hl]
      by_cases he : link = ""
      · rw [if_pos he]
        exact fun h => Resp.noConfusion h
      · rw [if_neg he]
        exact fun h => Resp.noConfusion h

lemma postLookup_ne_unauthorized (st : Store) (q : Option String) :
    postLookup st q ≠ Resp.unauthorized := by
  rw [postLookup_eq]
  by_cases hq : norm q = ""
  · rw [if_pos hq]
    exact fun h => Resp.noConfusion h
  · rw [if_neg hq]
    rcases hl : List.lookup (norm q) st.emailToLink with _ | link
    · simp only [hl]
      exact fun h => Resp.noConfusion h
    · simp only [hl]
      by_cases he : link = ""
      · rw [if_pos he]
        exact fun h => Resp.noConfusion h
      · rw [if_neg he]
        exact fun h => Resp.noConfusion h

/-- Counterexample to C3 as stated: the second row of the duplicate-key
source `exRows` is well-formed (non-empty normalized key and trimmed
value), yet looking up its normalized key returns the first row's value
`http://x/1`, not this row's own value `http://x/2`. -/
theorem C3_counterexample :
    exRows[1]? = some (Row.mk (some "a@example.com") (some "http://x/2")) ∧
    norm (some "a@example.com") ≠ "" ∧
    jsTrim (jsCoalesce (some "http://x/2")) ≠ "" ∧
    List.lookup (norm (some "a@example.com")) (buildTable exRows) = some "http://x/1" ∧
    List.lookup (norm (some "a@example.com")) (buildTable exRows) ≠
      some (jsTrim (jsCoalesce (some "http://x/2"))) := by
  decide

/-- C3 amended: for every well-formed row (non-empty normalized key and
trimmed value) that is the FIRST well-formed row of the source with its
normalized key, looking up that key after the load returns that row's
value.  (Rows whose key already appeared earlier get the earlier row's
value instead, by first-write-wins.) -/
theorem C3_wellformed_row_lookup
    (rows : List Row) (i : Nat) (row : Row)
    (hi : rows[i]? = some row)
    (hk : norm row.email ≠ "") (hv : jsTrim (jsCoalesce row.link) ≠ "")
    (hfirst : ∀ m, m < i → ∀ rm, rows[m]? = some rm →
        ¬(norm rm.email = norm row.email ∧ jsTrim (jsCoalesce rm.link) ≠ "")) :
    List.lookup (norm row.email) (buildTable rows) =
      some (jsTrim (jsCoalesce row.link)) := by
  rw [lookup_buildTable]
  exact firstHit_eq_of_first rows i row (norm row.email) hi rfl hk hv hfirst

/-- Witness for the amended C3 at the first row of `exRows`. -/
theorem C3_witness :
    List.lookup (norm (some "A@Example.com")) (buildTable exRows) =
      some (jsTrim (jsCoalesce (some "http://x/1"))) :=
  C3_wellformed_row_lookup exRows 0 ⟨some "A@Example.com", some "http://x/1"⟩
    (by decide) (by decide) (by decide)
    (fun m hm _ _ => absurd hm (Nat.not_lt_zero m))

/-- C4: install atomicity.  In the event-loop model of an in-flight load,
every reachable state holds either the fully-old store or the
fully-installed new store (never a mix), every lookup observes one of the
two, and while the load is still in progress lookups are answered from the
old store (so no lookup waits for the source read). -/
theorem C4_install_atomicity
    (st0 : Store) (rows : List Row) (p : String) (s : SysState)
    (hreach : Relation.ReflTransGen LoadStep ⟨st0, some ⟨rows, [], p⟩⟩ s) :
    (s.store = st0 ∨ s.store = ⟨buildTable rows, p⟩) ∧
    (∀ q, getLookup s.store q = getLookup st0 q ∨
        getLookup s.store q = getLookup ⟨buildTable rows, p⟩ q) ∧
    (s.job.isSome = true → s.store = st0) := by
  have hinv := loadStep_invariant st0 rows p s hreach
  rcases hinv with ⟨hst, _, _, hjob, _⟩ | ⟨hst, hjob⟩
  · exact ⟨Or.inl hst, fun q => Or.inl (by rw [hst]), fun _ => hst⟩
  · refine ⟨Or.inr hst, fun q => Or.inr (by rw [hst]), fun hs => ?_⟩
    rw [hjob] at hs
    simp at hs

/-- Witness for C4 at the initial state of a load of `exRows`. -/
theorem C4_witness :
    ((SysState.mk ⟨[], ""⟩ (some ⟨exRows, [], "data.csv"⟩)).store = ⟨[], ""⟩ ∨
      (SysState.mk ⟨[], ""⟩ (some ⟨exRows, [], "data.csv"⟩)).store =
        ⟨buildTable exRows, "data.csv"⟩) ∧
    (∀ q, getLookup (SysState.mk ⟨[], ""⟩ (some ⟨exRows, [], "data.csv"⟩)).store q =
        getLookup ⟨[], ""⟩ q ∨
      getLookup (SysState.mk ⟨[], ""⟩ (some ⟨exRows, [], "data.csv"⟩)).store q =
        getLookup ⟨buildTable exRows, "data.csv"⟩ q) ∧
    ((SysState.mk ⟨[], ""⟩ (some ⟨exRows, [], "data.csv"⟩)).job.isSome = true →
      (SysState.mk ⟨[], ""⟩ (some ⟨exRows, [], "data.csv"⟩)).store = ⟨[], ""⟩) :=
  C4_install_atomicity ⟨[], ""⟩ exRows "data.csv"
    ⟨⟨[], ""⟩, some ⟨exRows, [], "data.csv"⟩⟩ Relation.ReflTransGen.refl

/-- C6: load failure taxonomy and reload surfacing.  A nonexistent path
makes the load fail with the `CSV not found` error (no empty table is
installed), and the reload route turns that failure into a 500 carrying
the message while leaving the store unchanged; a successful load answers
`{reloaded:true, count, path}` where the count is the size of the newly
installed table and the path is the resolved source path. -/
theorem C6_reload_contract
    (fs : FS) (cfg : Config) (st : Store) (bodyPath : Option String) :
    (fs (resolveReloadPath cfg bodyPath) = none →
      (loadCsv fs (resolveReloadPath cfg bodyPath) st).1 = st ∧
      (loadCsv fs (resolveReloadPath cfg bodyPath) st).2 =
        Except.error ("CSV not found: " ++ resolveReloadPath cfg bodyPath) ∧
      postReload fs cfg st bodyPath =
        (st, Resp.serverError ("CSV not found: " ++ resolveReloadPath cfg bodyPath))) ∧
    (∀ rows, fs (resolveReloadPath cfg bodyPath) = some rows →
      postReload fs cfg st bodyPath =
        (⟨buildTable rows, resolveReloadPath cfg bodyPath⟩,
         Resp.okReload (buildTable rows).length (resolveReloadPath cfg bodyPath))) := by
  constructor
  · intro h
    refine ⟨?_, ?_, ?_⟩
    · simp only [loadCsv, h]
    · simp only [loadCsv, h]
    · simp only [postReload, loadCsv, h]
  · intro rows h
    simp only [postReload, loadCsv, h]

/-- Witness for C6: a successful reload of `exRows` through the resolved
default path. -/
theorem C6_witness :
    postReload (fun p => if p = "root/data.csv" then some exRows else none)
        ⟨"root", "data.csv", ""⟩ ⟨[], ""⟩ none =
      (⟨buildTable exRows, resolveReloadPath ⟨"root", "data.csv", ""⟩ none⟩,
       Resp.okReload (buildTable exRows).length
         (resolveReloadPath ⟨"root", "data.csv", ""⟩ none)) :=
  (C6_reload_contract (fun p => if p = "root/data.csv" then some exRows else none)
      ⟨"root", "data.csv", ""⟩ ⟨[], ""⟩ none).2 exRows (by decide)

/-- C7: lookup endpoint contract (GET and POST).  The response is 400
exactly when the email is missing or empty after trimming, 404 exactly
when the trim+lowercase normalized email (the same normalization the
loader applies) is absent from a table installed by the loader, and
otherwise a success body carrying the original input trimmed (not
lowercased) together with the stored link. -/
theorem C7_lookup_endpoint_contract
    (st : Store) (rows : List Row) (hsrc : st.emailToLink = buildTable rows)
    (q : Option String) :
    (getLookup st q = Resp.badRequest "Missing email query param" ↔
        jsTrim (jsCoalesce q) = "") ∧
    (getLookup st q = Resp.notFound ↔
        (jsTrim (jsCoalesce q) ≠ "" ∧ List.lookup (norm q) st.emailToLink = none)) ∧
    (∀ link, jsTrim (jsCoalesce q) ≠ "" →
        List.lookup (norm q) st.emailToLink = some link →
        getLookup st q = Resp.okLookup (jsTrim (jsOrDefault q "")) link) ∧
    (postLookup st q = Resp.badRequest "Missing \"email\" in JSON body" ↔
        jsTrim (jsCoalesce q) = "") ∧
    (postLookup st q = Resp.notFound ↔
        (jsTrim (jsCoalesce q) ≠ "" ∧ List.lookup (norm q) st.emailToLink = none)) ∧
    (∀ link, jsTrim (jsCoalesce q) ≠ "" →
        List.lookup (norm q) st.emailToLink = some link →
        postLookup st q = Resp.okLookup (jsTrim (jsCoalesce q)) link) := by
  have hiff := norm_eq_empty_iff q
  by_cases hq : norm q = ""
  · have ht : jsTrim (jsCoalesce q) = "" := hiff.mp hq
    rw [getLookup_eq, postLookup_eq, if_pos hq, if_pos hq]
    refine ⟨?_, ?_, ?_, ?_, ?_, ?_⟩
    · simp [ht]
    · constructor
      · intro h
        exact Resp.noConfusion h
      · rintro ⟨hne, _⟩
        exact absurd ht hne
    · intro link hne _
      exact absurd ht hne
    · simp [ht]
    · constructor
      · intro h
        exact Resp.noConfusion h
      · rintro ⟨hne, _⟩
        exact absurd ht hne
    · intro link hne _
      exact absurd ht hne
  · have ht : jsTrim (jsCoalesce q) ≠ "" := fun h => hq (hiff.mpr h)
    rw [getLookup_eq, postLookup_eq, if_neg hq, if_neg hq]
    rcases hl : List.lookup (norm q) st.emailToLink with _ | link
    · simp only [hl]
      refine ⟨?_, ?_, ?_, ?_, ?_, ?_⟩
      · constructor
        · intro h
          exact Resp.noConfusion h
        · intro h
          exact absurd h ht
      · constructor
        · intro _
          exact ⟨ht, by trivial⟩
        · intro _
          trivial
      · intro link hne hlk
        exact Option.noConfusion hlk
      · constructor
        · intro h
          exact Resp.noConfusion h
        · intro h
          exact absurd h ht
      · constructor
        · intro _
          exact ⟨ht, by trivial⟩
        · intro _
          trivial
      · intro link hne hlk
        exact Option.noConfusion hlk
    · have hv : link ≠ "" := by
        refine lookup_buildTable_value_ne_empty rows (norm q) link ?_
        rw [← hsrc]
        exact hl
      simp only [hl]
      rw [if_neg hv, if_neg hv]
      refine ⟨?_, ?_, ?_, ?_, ?_, ?_⟩
      · constructor
        · intro h
          exact Resp.noConfusion h
        · intro h
          exact absurd h ht
      · constructor
        · intro h
          exact Resp.noConfusion h
        · rintro ⟨_, hc⟩
          exact Option.noConfusion hc
      · intro link2 hne hlk
        injection hlk with h2
        rw [h2]
      · constructor
        · intro h
          exact Resp.noConfusion h
        · intro h
          exact absurd h ht
      · constructor
        · intro h
          exact Resp.noConfusion h
        · rintro ⟨_, hc⟩
          exact Option.noConfusion hc
      · intro link2 hne hlk
        injection hlk with h2
        rw [h2]

/-- Witness for C7: a successful GET lookup of the padded mixed-case
email against the table loaded from `exRows`. -/
theorem C7_witness :
    getLookup ⟨buildTable exRows, "data.csv"⟩ (some " A@Example.com ") =
      Resp.okLookup (jsTrim (jsOrDefault (some " A@Example.com ") "")) "http://x/1" :=
  (C7_lookup_endpoint_contract ⟨buildTable exRows, "data.csv"⟩ exRows rfl
      (some " A@Example.com ")).2.2.1 "http://x/1" (by decide) (by decide)

lemma postReload_ne_unauthorized (fs : FS) (cfg : Config) (st : Store)
    (bp : Option String) :
    (postReload fs cfg st bp).2 ≠ Resp.unauthorized := by
  rcases h : loadCsv fs (resolveReloadPath cfg bp) st with ⟨st2, res⟩
  rcases res with msg | info
  · simp only [postReload, h]
    exact fun hc => Resp.noConfusion hc
  · simp only [postReload, h]
    exact fun hc => Resp.noConfusion hc

/-- C8: authentication guard.  A blank configured key passes every
request; with a non-blank key the POST routes answer 401 exactly when the
`x-api-key` header differs from the key, and the rejection happens before
any handler logic (the store is untouched and the answer is independent of
the file system); the GET routes never answer 401 and ignore the
configured key entirely. -/
theorem C8_auth_guard
    (fs fs2 : FS) (cfg : Config) (st : Store) (hdr : Option String)
    (bodyE bodyP q : Option String) (key2 : String) :
    (cfg.apiAccessKey = "" → authGuardPasses cfg hdr = true) ∧
    (cfg.apiAccessKey ≠ "" →
      (((handle fs cfg st (Request.postOne hdr bodyE)).2 = Resp.unauthorized ↔
          hdr ≠ some cfg.apiAccessKey) ∧
       ((handle fs cfg st (Request.reload hdr bodyP)).2 = Resp.unauthorized ↔
          hdr ≠ some cfg.apiAccessKey) ∧
       (hdr ≠ some cfg.apiAccessKey →
          handle fs cfg st (Request.postOne hdr bodyE) = (st, Resp.unauthorized) ∧
          handle fs cfg st (Request.reload hdr bodyP) = (st, Resp.unauthorized) ∧
          handle fs2 cfg st (Request.reload hdr bodyP) =
            handle fs cfg st (Request.reload hdr bodyP)))) ∧
    (handle fs cfg st (Request.getOne q)).2 ≠ Resp.unauthorized ∧
    (handle fs cfg st Request.health).2 ≠ Resp.unauthorized ∧
    handle fs (Config.mk cfg.cwd cfg.defaultCsvPath key2) st (Request.getOne q) =
      handle fs cfg st (Request.getOne q) ∧
    handle fs (Config.mk cfg.cwd cfg.defaultCsvPath key2) st Request.health =
      handle fs cfg st Request.health := by
  refine ⟨?_, ?_, ?_, ?_, ?_, ?_⟩
  · intro h
    rw [authGuardPasses, if_pos h]
  · intro hk
    have hval : authGuardPasses cfg hdr = decide (hdr = some cfg.apiAccessKey) := by
      rw [authGuardPasses, if_neg hk]
    by_cases hh : hdr = some cfg.apiAccessKey
    · have hg : authGuardPasses cfg hdr = true := by
        rw [hval]
        exact decide_eq_true hh
      have hpost : handle fs cfg st (Request.postOne hdr bodyE) =
          (st, postLookup st bodyE) := by
        simp [handle, hg]
      have hrel : handle fs cfg st (Request.reload hdr bodyP) =
          postReload fs cfg st bodyP := by
        simp [handle, hg]
      refine ⟨?_, ?_, fun hne => absurd hh hne⟩
      · rw [hpost]
        constructor
        · intro h
          exact absurd h (postLookup_ne_unauthorized st bodyE)
        · intro h
          exact absurd hh h
      · rw [hrel]
        constructor
        · intro h
          exact absurd h (postReload_ne_unauthorized fs cfg st bodyP)
        · intro h
          exact absurd hh h
    · have hg : authGuardPasses cfg hdr = false := by
        rw [hval]
        exact decide_eq_false hh
      have hpost : handle fs cfg st (Request.postOne hdr bodyE) =
          (st, Resp.unauthorized) := by
        simp [handle, hg]
      have hrel : handle fs cfg st (Request.reload hdr bodyP) =
          (st, Resp.unauthorized) := by
        simp [handle, hg]
      have hrel2 : handle fs2 cfg st (Request.reload hdr bodyP) =
          (st, Resp.unauthorized) := by
        simp [handle, hg]
      refine ⟨?_, ?_, fun _ => ⟨hpost, hrel, by rw [hrel, hrel2]⟩⟩
      · rw [hpost]
        exact ⟨fun _ => hh, fun _ => rfl⟩
      · rw [hrel]
        exact ⟨fun _ => hh, fun _ => rfl⟩
  · exact getLookup_ne_unauthorized st q
  · exact fun h => Resp.noConfusion h
  · rfl
  · rfl

/-- Witness for C8: with key `s3cret` configured and a wrong header, both
POST routes answer 401 with the store untouched. -/
theorem C8_witness :
    handle (fun _ => none) ⟨"root", "data.csv", "s3cret"⟩
        ⟨buildTable exRows, "data.csv"⟩
        (Request.postOne (some "wrong") (some "a@example.com")) =
      (⟨buildTable exRows, "data.csv"⟩, Resp.unauthorized) ∧
    handle (fun _ => none) ⟨"root", "data.csv", "s3cret"⟩
        ⟨buildTable exRows, "data.csv"⟩ (Request.reload (some "wrong") none) =
      (⟨buildTable exRows, "data.csv"⟩, Resp.unauthorized) :=
  ⟨(((C8_auth_guard (fun _ => none) (fun _ => none) ⟨"root", "data.csv", "s3cret"⟩
        ⟨buildTable exRows, "data.csv"⟩ (some "wrong") (some "a@example.com") none none
        "").2.1 (by decide)).2.2 (by decide)).1,
   (((C8_auth_guard (fun _ => none) (fun _ => none) ⟨"root", "data.csv", "s3cret"⟩
        ⟨buildTable exRows, "data.csv"⟩ (some "wrong") (some "a@example.com") none none
        "").2.1 (by decide)).2.2 (by decide)).2.1⟩
